import Mathlib

/-!
# Verification of the RobotRecording teach-and-replay controller

Shallow embedding of the recording/replay core of the RobotRecording
repository (`src/utils.py`, `src/robot_interface.py`, `src/recorder.py`),
together with proofs and refutations of the specification's claims.

Machine floats are modelled as rationals (`ℚ`); numpy 1-D arrays as
`List ℚ`; Python exceptions as `Except`/`Option`; the robot transport as an
`Except` value injected where the source performs socket I/O.
-/

namespace RobotRecording

/-! ## Data model (`src/utils.py`)

`MemoryType` and `MotionType` are the enums of `utils.py` (lines 8-19):
`MemoryType` has exactly the members ABSOLUTE, RELATIVE, END_EFFECTOR and
`MotionType` has exactly JOINT, LINEAR, GRIPPER. -/

inductive MemoryType where
  | ABSOLUTE
  | RELATIVE
  | END_EFFECTOR
deriving DecidableEq, Repr

inductive MotionType where
  | JOINT
  | LINEAR
  | GRIPPER
deriving DecidableEq, Repr

/-- `Enum.name` of a `MemoryType` member. -/
def MemoryType.name : MemoryType → String
  | .ABSOLUTE => "ABSOLUTE"
  | .RELATIVE => "RELATIVE"
  | .END_EFFECTOR => "END_EFFECTOR"

/-- `Enum.name` of a `MotionType` member. -/
def MotionType.name : MotionType → String
  | .JOINT => "JOINT"
  | .LINEAR => "LINEAR"
  | .GRIPPER => "GRIPPER"

/-- Python attribute lookup `MemoryType.<s>` on the enum class: `some` for the
members that exist in `utils.py`, `none` (an `AttributeError`) otherwise.
`replay` in `robot_interface.py` accesses `MemoryType.POINT` and
`MemoryType.MOVEMENT`, which are not members. -/
def memoryTypeAttr : String → Option MemoryType
  | "ABSOLUTE" => some .ABSOLUTE
  | "RELATIVE" => some .RELATIVE
  | "END_EFFECTOR" => some .END_EFFECTOR
  | _ => none

/-- Item lookup `MemoryType[s]` (used by `MemoryEntry.from_dict`); `none`
models the `KeyError` raised for an unknown name. -/
def memoryTypeMember : String → Option MemoryType
  | "ABSOLUTE" => some .ABSOLUTE
  | "RELATIVE" => some .RELATIVE
  | "END_EFFECTOR" => some .END_EFFECTOR
  | _ => none

/-- Item lookup `MotionType[s]`. -/
def motionTypeMember : String → Option MotionType
  | "JOINT" => some .JOINT
  | "LINEAR" => some .LINEAR
  | "GRIPPER" => some .GRIPPER
  | _ => none

/-- The `value` field of a memory entry: a 1-D numpy array of floats
(ABSOLUTE/RELATIVE moves) or a 2-D array of `(pin, level)` rows
(END_EFFECTOR actions recorded by `recorder.py`). -/
inductive Value where
  | flat (xs : List ℚ)
  | mat (rows : List (List ℚ))
deriving DecidableEq, Repr

/-- `MemoryEntry` of `utils.py` (fields `type`, `value`, `motion_type`,
`valid`, the last defaulting to `True`). -/
structure MemoryEntry where
  type : MemoryType
  value : Value
  motion_type : MotionType
  valid : Bool := true
deriving DecidableEq, Repr

/-! ## Joint-bound clamping (`RobotRecorder.bound_movement`, recorder.py 448-471) -/

/-- `np.clip(x, lo, hi)`: numpy applies the lower bound first, then the
upper bound. -/
def clip (x lo hi : ℚ) : ℚ := min (max x lo) hi

/-- Componentwise body of `bound_movement`:
`np.clip(current + movement, bounds[:,0], bounds[:,1]) - current`. -/
def boundAux : List (ℚ × ℚ) → List ℚ → List ℚ → List ℚ
  | (lo, hi) :: bs, a :: xs, d :: ds => (clip (a + d) lo hi - a) :: boundAux bs xs ds
  | _, _, _ => []

/-- `RobotRecorder.bound_movement`: reads the current angles, clips
`current + movement` to the per-joint bounds, and returns the corrected
delta. `none` models the `Exception("No angles available")` raised when the
angle reading is empty (`current_angles.size` is zero). -/
def bound_movement (joint_bounds : List (ℚ × ℚ)) (current_angles movement : List ℚ) :
    Option (List ℚ) :=
  if current_angles.isEmpty then none
  else some (boundAux joint_bounds current_angles movement)

/-- The default `joint_bounds` of `RobotRecorder.__init__`. -/
def defaultJointBounds : List (ℚ × ℚ) :=
  [(-80, 80), (-125, 125), (85, 245), (-355, 355)]

/-! ## The control tick (`RobotRecorder.move_robot`, recorder.py 473-497) -/

/-- The four scalar fields of `self.controller_buffer`. -/
structure ControllerBuffer where
  joint_pos : ℚ
  joint_neg : ℚ
  left_joystick : ℚ
  right_joystick : ℚ
deriving DecidableEq, Repr

/-- The recorder attributes read by one control tick. -/
structure RecorderState where
  number_of_joints : ℕ
  max_speed : List ℚ
  left_joystick_joint : ℕ
  right_joystick_joint : ℕ
  joint_bounds : List (ℚ × ℚ)
  active_joint : ℕ
  mode : MemoryType
deriving DecidableEq, Repr

/-- Lines 477-488 of `move_robot`: the proposed (unclamped) per-joint delta
built from the controller buffer: the trigger difference scaled by
`max_speed` on the active joint, plus the two joystick contributions on
their configured joints. Indices are in range in every configuration, so
`List.set`/`List.getD` agree with Python list indexing here. -/
def intended_movement (st : RecorderState) (buf : ControllerBuffer) : List ℚ :=
  let m0 := List.replicate st.number_of_joints (0 : ℚ)
  let m1 := m0.set st.active_joint
    ((buf.joint_pos - buf.joint_neg) * st.max_speed.getD st.active_joint 0)
  let m2 := m1.set st.left_joystick_joint
    (m1.getD st.left_joystick_joint 0 +
      buf.left_joystick * st.max_speed.getD st.left_joystick_joint 0)
  m2.set st.right_joystick_joint
    (m2.getD st.right_joystick_joint 0 +
      buf.right_joystick * st.max_speed.getD st.right_joystick_joint 0)

/-- Line 490: `np.where(np.abs(movement) < 0.5, 0, movement)`, per joint. -/
def deadzone (x : ℚ) : ℚ := if |x| < 1 / 2 then 0 else x

/-- What one dataclass slot of a `MemoryEntry` holds at runtime. Python is
untyped: `RobotRecorder.save` (recorder.py 199) passes its arguments
`(memory_type, motion_type, value)` positionally into
`MemoryEntry(type, value, motion_type, valid)`, so a `MotionType` enum
member lands in the `value` slot and the ndarray in the `motion_type`
slot. -/
inductive PyField where
  | ofMotionType (m : MotionType)
  | ofValue (v : Value)
deriving DecidableEq, Repr

/-- A `utils.MemoryEntry` instance as `RobotRecorder.save` actually
constructs it: same dataclass, but with the dynamically-typed slot
contents the positional call produces (contrast `MemoryEntry`, the
well-formed population that `from_dict` builds). -/
structure SavedEntry where
  type : MemoryType
  value : PyField
  motion_type : PyField
  valid : Bool
deriving DecidableEq, Repr

/-- `RobotRecorder.save` (recorder.py 190-200):
`MemoryEntry(memory_type, motion_type, value)` matched positionally against
the field order `(type, value, motion_type, valid)` — the `motion_type`
argument fills the `value` field, the `value` argument fills the
`motion_type` field, and `valid` defaults to true. -/
def save (memory_type : MemoryType) (motion_type : MotionType) (value : Value) :
    SavedEntry :=
  { type := memory_type, value := .ofMotionType motion_type,
    motion_type := .ofValue value, valid := true }

/-- One control tick (lines 477-497). Returns `none` when `bound_movement`
raises (empty angle reading); otherwise `(command, savedEntry)`:
`command` is the delta passed to `move_joint_relative` (`none` when the
dead-zoned vector is all zero and no command is issued), `savedEntry` is
the entry `save(RELATIVE, JOINT, movement)` appended (`none` when nothing
is saved). `moveSucceeds` is false when `move_joint_relative` raises
`ConnectionAbortedError`, which the tick catches after logging, skipping
the save. -/
def move_robot (st : RecorderState) (buf : ControllerBuffer)
    (current_angles : List ℚ) (moveSucceeds : Bool) :
    Option (Option (List ℚ) × Option SavedEntry) :=
  match bound_movement st.joint_bounds current_angles (intended_movement st buf) with
  | none => none
  | some bounded =>
    let m := bounded.map deadzone
    if ∃ x ∈ m, x ≠ 0 then
      if moveSucceeds then
        some (some m,
          if st.mode = MemoryType.RELATIVE ∧ 0 < |m.sum| then
            some (save MemoryType.RELATIVE MotionType.JOINT (.flat m))
          else none)
      else some (some m, none)
    else some (none, none)

/-! ## Move compaction (`RobotRecorder.optimize_relative_movement`, recorder.py 499-519) -/

/-- `np.sign` on one component. -/
def npSign (x : ℚ) : ℚ := if x < 0 then -1 else if 0 < x then 1 else 0

/-- `np.sign` of a value array (shape preserved). -/
def signV : Value → Value
  | .flat xs => .flat (xs.map npSign)
  | .mat rows => .mat (rows.map fun r => r.map npSign)

/-- `np.array(x) + np.array(y)` for equal-shape arrays; the merge only adds
values whose sign arrays are equal, hence of equal shape, so numpy
broadcasting is not modelled (the mismatched case is unreachable). -/
def addV : Value → Value → Value
  | .flat xs, .flat ys => .flat (List.zipWith (· + ·) xs ys)
  | .mat xs, .mat ys => .mat (List.zipWith (fun r s => List.zipWith (· + ·) r s) xs ys)
  | v, _ => v

/-- The merge guard of lines 505-511: both entries RELATIVE (the chained
comparison `entry.type == optimized_memory[-1].type == MemoryType.RELATIVE`),
equal `motion_type`, and `np.array_equal` sign arrays. -/
def mergeCond (last e : MemoryEntry) : Prop :=
  e.type = last.type ∧ last.type = MemoryType.RELATIVE ∧
    e.motion_type = last.motion_type ∧ signV e.value = signV last.value

instance (last e : MemoryEntry) : Decidable (mergeCond last e) := by
  unfold mergeCond; infer_instance

/-- Lines 512-516: sum the value arrays into the group head; the head keeps
its own `valid` flag and is set invalid when the absorbed entry was. -/
def mergeEntries (last e : MemoryEntry) : MemoryEntry :=
  { last with value := addV last.value e.value, valid := last.valid && e.valid }

/-- The left-to-right pass of lines 504-518, carrying the current group
head (`optimized_memory[-1]`). -/
def optAux (last : MemoryEntry) : List MemoryEntry → List MemoryEntry
  | [] => [last]
  | e :: rest =>
    if mergeCond last e then optAux (mergeEntries last e) rest
    else last :: optAux e rest

/-- `RobotRecorder.optimize_relative_movement`: seeds the pass with
`self.memory[0]`; `none` models the `IndexError` that line 503 raises on an
empty memory. -/
def optimize_relative_movement : List MemoryEntry → Option (List MemoryEntry)
  | [] => none
  | e :: rest => some (optAux e rest)

/-- The numeric sequence behind a flat value (`[]` for a 2-D array); only
used to state which components have opposite signs. -/
def flatValue : Value → List ℚ
  | .flat xs => xs
  | .mat _ => []

/-- The triangle-button handler `delete_func` (recorder.py 259-261):
`if state and self.memory: del self.memory[-1]`. -/
def delete_last (state : Bool) (memory : List MemoryEntry) : List MemoryEntry :=
  if state ∧ ¬memory.isEmpty then memory.dropLast else memory

/-! ## Serialization (`MemoryEntry.serialize` / `MemoryEntry.from_dict`, utils.py 39-67) -/

/-- One serialized entry; fields model the JSON keys `"Type"`, `"Value"`,
`"Motion Type"`, `"Valid"`. -/
structure SerializedEntry where
  typeName : String
  valueField : List ℚ
  motionTypeName : String
  validFlag : Bool
deriving DecidableEq, Repr

/-- `[float(el) for el in list(self.value)]`: each element of a 1-D array is
a scalar and converts; each element of a 2-D array is a row (a non-scalar
ndarray) on which `float()` raises `TypeError` (`none`). -/
def pyFloatList : Value → Option (List ℚ)
  | .flat xs => some xs
  | .mat rows => if rows.isEmpty then some [] else none

/-- `MemoryEntry.serialize`; `none` models the `TypeError` above. -/
def serialize (e : MemoryEntry) : Option SerializedEntry :=
  (pyFloatList e.value).map fun vs =>
    { typeName := e.type.name, valueField := vs,
      motionTypeName := e.motion_type.name, validFlag := e.valid }

/-- `MemoryEntry.from_dict`; `none` models the `KeyError` raised by
`MemoryType[...]` / `MotionType[...]` on an unknown name. -/
def from_dict (d : SerializedEntry) : Option MemoryEntry := do
  let t ← memoryTypeMember d.typeName
  let mt ← motionTypeMember d.motionTypeName
  pure { type := t, value := .flat d.valueField, motion_type := mt, valid := d.validFlag }

/-- Serialization of a whole memory, as in `dump_memory`. -/
def serialize_memory (memory : List MemoryEntry) : Option (List SerializedEntry) :=
  memory.mapM serialize

/-- Deserialization of a whole memory, as in `load_memory`. -/
def deserialize_memory (ds : List SerializedEntry) : Option (List MemoryEntry) :=
  ds.mapM from_dict

/-- Modelled from the spec: the category/motion-kind invariant of §3
(data model), restricted to the `MotionType` members that exist in
`utils.py` (the code has no SUCTION_CUP member): END_EFFECTOR entries carry
a GRIPPER motion kind, all others a JOINT or LINEAR one. -/
def categoryMotionInvariant (e : MemoryEntry) : Bool :=
  decide (if e.type = MemoryType.END_EFFECTOR then e.motion_type = MotionType.GRIPPER
    else e.motion_type = MotionType.JOINT ∨ e.motion_type = MotionType.LINEAR)

/-! ## Telemetry parsing (`RobotInterface`, robot_interface.py 139-229)

The dashboard channel is modelled as an `Except PyError String`: the reply
string, or the transport exception the socket call raised. -/

inductive PyError where
  | valueError
  | attributeError
  | typeError
  | nameError
  | jsonDecodeError
  | connectionError
deriving DecidableEq, Repr

/-- Word characters of the regex class `\w`. -/
def isWordChar (c : Char) : Bool := c.isAlphanum || c = '_'

/-- Whitespace stripped by Python `str.strip()` / `str.split` fields. -/
def isPySpace (c : Char) : Bool := c = ' ' || c = '\t' || c = '\n' || c = '\r'

/-- Python `str.strip()` on a character list. -/
def pyStrip (cs : List Char) : List Char :=
  ((cs.dropWhile isPySpace).reverse.dropWhile isPySpace).reverse

/-- Splitting on `,` as `str.split(",")` does: every separator starts a new
field, and the accumulator holds the current field reversed. -/
def splitCommaAux (acc : List Char) : List Char → List (List Char)
  | [] => [acc.reverse]
  | ',' :: rest => acc.reverse :: splitCommaAux [] rest
  | c :: rest => splitCommaAux (c :: acc) rest

/-- `s.split(",")` on a character list (never empty). -/
def splitComma (cs : List Char) : List (List Char) := splitCommaAux [] cs

/-- Numeric value of a digit run. -/
def digitsVal (cs : List Char) : ℕ :=
  cs.foldl (fun a c => a * 10 + (c.toNat - 48)) 0

/-- A nonempty all-digit run, or `none`. -/
def parseDigits (cs : List Char) : Option ℕ :=
  if cs.isEmpty then none
  else if cs.all Char.isDigit then some (digitsVal cs) else none

/-- Python `int(s)`: strip whitespace, optional sign, decimal digits;
`none` models the `ValueError` on anything else. -/
def pyInt (cs : List Char) : Option Int :=
  match pyStrip cs with
  | '-' :: ds => (parseDigits ds).map fun n => -(n : Int)
  | '+' :: ds => (parseDigits ds).map fun n => (n : Int)
  | ds => (parseDigits ds).map fun n => (n : Int)

/-- Scanner for `re.search(r"\b\w+\b(?=\(\);)", s)`: the first maximal word
run immediately followed by `();`. The accumulator holds the current word
run reversed. -/
def findMethodAux : List Char → List Char → Option (List Char)
  | _, [] => none
  | run, c :: rest =>
    if isWordChar c then findMethodAux (c :: run) rest
    else if c = '(' then
      match rest with
      | ')' :: ';' :: _ => if run.isEmpty then findMethodAux [] rest else some run.reverse
      | _ => findMethodAux [] rest
    else findMethodAux [] rest

/-- The method name matched before `();`, or `none` when the regex finds no
match (so `.group()` raises `AttributeError`). -/
def findMethodName (s : String) : Option String :=
  (findMethodAux [] s.data).map fun cs => String.mk cs

/-- `RobotInterface.extract_metavalues`: `int(s.split(",")[0])` and the
method-name regex. -/
def extract_metavalues (s : String) : Except PyError (Int × String) :=
  match pyInt ((splitComma s.data).headD []) with
  | none => .error .valueError
  | some rv =>
    match findMethodName s with
    | none => .error .attributeError
    | some name => .ok (rv, name)

/-- Index of the first occurrence of `c`, counting from `i`. -/
def charIndexAux (c : Char) : List Char → ℕ → Option ℕ
  | [], _ => none
  | x :: xs, i => if x = c then some i else charIndexAux c xs (i + 1)

/-- Python `s.find(c)`: first index, `-1` when absent. -/
def pyFind (s : String) (c : Char) : Int :=
  match charIndexAux c s.data 0 with
  | some i => (i : Int)
  | none => -1

/-- Python `s.rfind(c)`: last index, `-1` when absent. -/
def pyRFind (s : String) (c : Char) : Int :=
  match charIndexAux c s.data.reverse 0 with
  | some i => (s.data.length : Int) - 1 - (i : Int)
  | none => -1

/-- Python slice `cs[start:stop]` including the negative-index convention. -/
def pySlice (cs : List Char) (start stop : Int) : List Char :=
  let n : Int := cs.length
  let st := if start < 0 then max 0 (n + start) else min start n
  let en := if stop < 0 then max 0 (n + stop) else min stop n
  if st < en then (cs.drop st.toNat).take (en - st).toNat else []

/-- Unsigned decimal literal `digits[.digits]` (the plain decimal notation
the arm's replies use). -/
def parseUnsignedFloat (cs : List Char) : Option ℚ :=
  let intPart := cs.takeWhile Char.isDigit
  let rest := cs.dropWhile Char.isDigit
  match rest with
  | [] => if intPart.isEmpty then none else some (digitsVal intPart : ℚ)
  | '.' :: frac =>
    if frac.all Char.isDigit ∧ ¬(intPart.isEmpty ∧ frac.isEmpty) then
      some ((digitsVal intPart : ℚ) + (digitsVal frac : ℚ) / ((10 : ℚ) ^ frac.length))
    else none
  | _ => none

/-- Python `float(s)` restricted to plain decimals. -/
def pyFloat (cs : List Char) : Option ℚ :=
  match pyStrip cs with
  | '-' :: ds => (parseUnsignedFloat ds).map fun q => -q
  | '+' :: ds => parseUnsignedFloat ds
  | ds => parseUnsignedFloat ds

/-- Keep the successfully parsed prefix, stopping at the first failure. -/
def collectParsed : List (Option ℚ) → List ℚ
  | [] => []
  | some q :: rest => q :: collectParsed rest
  | none :: _ => []

/-- `np.fromstring(s, sep=",")` (legacy text mode): split on the separator
and parse fields until the first one that fails. -/
def npFromString (cs : List Char) : List ℚ :=
  collectParsed ((splitComma cs).map pyFloat)

/-- `RobotInterface.extract_pose`:
`np.fromstring(s[s.find("{")+1 : s.find("}")], sep=",")[:number_of_joints]`. -/
def extract_pose (n : ℕ) (s : String) : List ℚ :=
  (npFromString (pySlice s.data (pyFind s '\x7b' + 1) (pyFind s '\x7d'))).take n

/-- `RobotInterface.extract_angles` (same body as `extract_pose`). -/
def extract_angles (n : ℕ) (s : String) : List ℚ :=
  (npFromString (pySlice s.data (pyFind s '\x7b' + 1) (pyFind s '\x7d'))).take n

/-- The body of the `try` block of the `pose` property: read the reply,
extract the metavalues, and return the parsed pose on a matching header or
the zero vector otherwise; any exception escapes as `.error`. -/
def poseTry (n : ℕ) (reply : Except PyError String) : Except PyError (List ℚ) :=
  match reply with
  | .error e => .error e
  | .ok result =>
    match extract_metavalues result with
    | .error e => .error e
    | .ok (rv, name) =>
      if rv = 0 ∧ name = "GetPose" then .ok (extract_pose n result)
      else .ok [0, 0, 0, 0]

/-- `RobotInterface.pose` (lines 165-184): the catch-all `except` turns any
exception into the zero vector. -/
def pose (n : ℕ) (reply : Except PyError String) : List ℚ :=
  match poseTry n reply with
  | .ok v => v
  | .error _ => [0, 0, 0, 0]

/-- The body of the `try` block of the `angles` property. -/
def anglesTry (n : ℕ) (reply : Except PyError String) : Except PyError (List ℚ) :=
  match reply with
  | .error e => .error e
  | .ok result =>
    match extract_metavalues result with
    | .error e => .error e
    | .ok (rv, name) =>
      if rv = 0 ∧ name = "GetAngle" then .ok (extract_angles n result)
      else .ok [0, 0, 0, 0]

/-- `RobotInterface.angles` (lines 186-204). -/
def angles (n : ℕ) (reply : Except PyError String) : List ℚ :=
  match anglesTry n reply with
  | .ok v => v
  | .error _ => [0, 0, 0, 0]

/-! ## Error decoding (`RobotInterface.error_id` / `nonblocking_move`) -/

/-- Leading whitespace skipped by the JSON parser. -/
def skipWs (cs : List Char) : List Char := cs.dropWhile fun c => c = ' '

/-- A JSON integer: optional minus sign and digits, returning the rest. -/
def parseJsonInt (cs : List Char) : Option (Int × List Char) :=
  match cs with
  | '-' :: rest =>
    let ds := rest.takeWhile Char.isDigit
    if ds.isEmpty then none
    else some (-(digitsVal ds : Int), rest.dropWhile Char.isDigit)
  | _ =>
    let ds := cs.takeWhile Char.isDigit
    if ds.isEmpty then none else some ((digitsVal ds : Int), cs.dropWhile Char.isDigit)

/-- Comma-separated integers up to the closing bracket (fuelled). -/
def parseIntItems : ℕ → List Char → Option (List Int × List Char)
  | 0, _ => none
  | fuel + 1, cs =>
    match parseJsonInt (skipWs cs) with
    | none => none
    | some (v, rest) =>
      match skipWs rest with
      | ',' :: rest2 => (parseIntItems fuel rest2).map fun p => (v :: p.1, p.2)
      | ']' :: rest2 => some ([v], rest2)
      | _ => none

/-- A JSON list of integers. -/
def parseIntList (cs : List Char) : Option (List Int × List Char) :=
  match skipWs cs with
  | '[' :: rest =>
    match skipWs rest with
    | ']' :: rest2 => some ([], rest2)
    | rest2 => parseIntItems (rest2.length + 1) rest2
  | _ => none

/-- Comma-separated integer lists up to the closing bracket (fuelled). -/
def parseListItems : ℕ → List Char → Option (List (List Int) × List Char)
  | 0, _ => none
  | fuel + 1, cs =>
    match parseIntList cs with
    | none => none
    | some (l, rest) =>
      match skipWs rest with
      | ',' :: rest2 => (parseListItems fuel rest2).map fun p => (l :: p.1, p.2)
      | ']' :: rest2 => some ([l], rest2)
      | _ => none

/-- `json.loads` restricted to the shape the error register produces: a
list of lists of integers; `none` models `JSONDecodeError` (and the
`TypeError` a non-nested shape would raise in the flattening, caught by the
same handler). -/
def jsonLoadsListList (cs : List Char) : Option (List (List Int)) :=
  match skipWs cs with
  | '[' :: rest =>
    match skipWs rest with
    | ']' :: rest2 => if (skipWs rest2).isEmpty then some [] else none
    | rest2 =>
      match parseListItems (rest2.length + 1) rest2 with
      | some (ls, r) => if (skipWs r).isEmpty then some ls else none
      | none => none
  | _ => none

/-- `RobotInterface.extract_error_codes`:
`json.loads(s[s.find("[") : s.rfind("]") + 1])` flattened. -/
def extract_error_codes (s : String) : Option (List Int) :=
  (jsonLoadsListList (pySlice s.data (pyFind s '[') (pyRFind s ']' + 1))).map
    fun ls => ls.flatten

/-- Translation of one code through the static table, with the
`Unknown error` fallback of lines 217-220. -/
def translateCode (table : List (Int × String)) (c : Int) : String :=
  match table.lookup c with
  | some t => t
  | none => "Unknown error " ++ toString c

/-- `RobotInterface.error_id` (lines 206-229). The result is
`.ok (some strings)` on the good path, `.ok none` when the method falls off
the end and returns Python `None` (header mismatch, or an extraction
exception caught by the bare `except Exception` handler), and
`.error nameError` when `GetErrorID` itself raised: the handler then
evaluates `print("Result", result)` with `result` unbound, so a
`NameError` propagates. The trailing `except JSONDecodeError: return []`
is unreachable (that exception is already caught above). -/
def error_id (table : List (Int × String)) (reply : Except PyError String) :
    Except PyError (Option (List String)) :=
  match reply with
  | .error _ => .error .nameError
  | .ok result =>
    match extract_metavalues result with
    | .error _ => .ok none
    | .ok (rv, name) =>
      if rv = 0 ∧ name = "GetErrorID" then
        match extract_error_codes result with
        | none => .ok none
        | some codes => .ok (some (codes.map (translateCode table)))
      else .ok none

/-- `RobotInterface.nonblocking_move` (lines 131-137), after the motion call
returned: `len(self.error_id)` on `None` raises `TypeError`; a non-empty
list logs, clears the error and reports `false`. -/
def nonblocking_move (errorIdResult : Except PyError (Option (List String))) :
    Except PyError Bool :=
  match errorIdResult with
  | .error e => .error e
  | .ok none => .error .typeError
  | .ok (some errs) => .ok errs.isEmpty

/-! ## Replay (`RobotInterface.replay`, robot_interface.py 231-255) -/

inductive MoveKind where
  | moveJoint
  | moveLinear
  | moveJointRel
  | moveLinearRel
deriving DecidableEq, Repr

/-- One motion command handed to `nonblocking_move`. -/
structure MoveCmd where
  kind : MoveKind
  value : Value
deriving DecidableEq, Repr

/-- The dispatch of lines 234-243. It first evaluates
`entry.type == MemoryType.POINT`: an attribute lookup of `POINT`, which is
not a member of `utils.MemoryType`, so an `AttributeError` is raised before
any comparison. The remaining branches mirror the source and would leave
`func` unbound (`NameError`) for an entry matched by neither arm. -/
def selectMoveFunc (e : MemoryEntry) : Except PyError MoveKind :=
  match memoryTypeAttr "POINT" with
  | none => .error .attributeError
  | some pt =>
    if e.type = pt then
      if e.motion_type = MotionType.LINEAR then .ok .moveLinear
      else if e.motion_type = MotionType.JOINT then .ok .moveJoint
      else .error .nameError
    else
      match memoryTypeAttr "MOVEMENT" with
      | none => .error .attributeError
      | some mv =>
        if e.type = mv then
          if e.motion_type = MotionType.LINEAR then .ok .moveLinearRel
          else if e.motion_type = MotionType.JOINT then .ok .moveJointRel
          else .error .nameError
        else .error .nameError

/-- Outcome of one replay run: the memory after the run (valid flags
updated in place by lines 251-252), the commands actually sent to the arm
in order, and the exception that escaped the loop, if any. -/
structure ReplayResult where
  memory : List MemoryEntry
  sent : List MoveCmd
  raised : Option PyError
deriving DecidableEq, Repr

/-- `memory[j].valid = False`. -/
def setInvalid (e : MemoryEntry) : MemoryEntry := { e with valid := false }

/-- `RobotInterface.replay`: iterate the memory in order; select the
primitive, execute it through `nonblocking_move` (outcome given by the
`succeeds` oracle over the command), and on the first failure mark this and
every remaining entry invalid and break. A dispatch exception propagates,
leaving the memory as it stands. -/
def replay (succeeds : MoveCmd → Bool) : List MemoryEntry → ReplayResult
  | [] => { memory := [], sent := [], raised := none }
  | e :: rest =>
    match selectMoveFunc e with
    | .error err => { memory := e :: rest, sent := [], raised := some err }
    | .ok kind =>
      let cmd : MoveCmd := { kind := kind, value := e.value }
      if succeeds cmd then
        let r := replay succeeds rest
        { memory := e :: r.memory, sent := cmd :: r.sent, raised := r.raised }
      else
        { memory := (e :: rest).map setInvalid, sent := [cmd], raised := none }

/-! ## Concrete data used by witnesses and counterexamples -/

/-- Tick state for the clamping counterexample: the defaults of
`RobotRecorder.__init__` (active joint `4 // 2 = 2`), RELATIVE mode. -/
def cexState : RecorderState :=
  { number_of_joints := 4, max_speed := [5, 5, 5, 15],
    left_joystick_joint := 0, right_joystick_joint := 1,
    joint_bounds := defaultJointBounds, active_joint := 2,
    mode := MemoryType.RELATIVE }

/-- Full positive trigger on the active joint, joysticks idle. -/
def cexBuffer : ControllerBuffer :=
  { joint_pos := 1, joint_neg := 0, left_joystick := 0, right_joystick := 0 }

/-- Idle controller buffer. -/
def idleBuffer : ControllerBuffer :=
  { joint_pos := 0, joint_neg := 0, left_joystick := 0, right_joystick := 0 }

/-- A well-formed END_EFFECTOR entry carrying the `(pin, level)` rows the
gripper handler uses when closing the gripper (pins `power = 13`,
`direction = 12`), shaped as the data model describes END_EFFECTOR values
(and as `from_dict` would build it from a memory file). -/
def gripperEntry : MemoryEntry :=
  { type := MemoryType.END_EFFECTOR, value := .mat [[13, 0], [12, 0], [13, 1]],
    motion_type := MotionType.GRIPPER, valid := true }

/-- An ABSOLUTE/JOINT pose entry as saved by `save_func`. -/
def absJointEntry : MemoryEntry :=
  { type := MemoryType.ABSOLUTE, value := .flat [10, 20, 30, 40],
    motion_type := MotionType.JOINT, valid := true }

/-- A five-entry RELATIVE/JOINT memory whose `i`-th entry moves joint 1 by
`i`. -/
def fiveEntryMemory : List MemoryEntry :=
  [{ type := MemoryType.RELATIVE, value := .flat [1, 0, 0, 0],
     motion_type := MotionType.JOINT, valid := true },
   { type := MemoryType.RELATIVE, value := .flat [2, 0, 0, 0],
     motion_type := MotionType.JOINT, valid := true },
   { type := MemoryType.RELATIVE, value := .flat [3, 0, 0, 0],
     motion_type := MotionType.JOINT, valid := true },
   { type := MemoryType.RELATIVE, value := .flat [4, 0, 0, 0],
     motion_type := MotionType.JOINT, valid := true },
   { type := MemoryType.RELATIVE, value := .flat [5, 0, 0, 0],
     motion_type := MotionType.JOINT, valid := true }]

/-- An arm oracle that rejects exactly the third entry's movement. -/
def failThirdMove (c : MoveCmd) : Bool :=
  decide (c.value ≠ Value.flat [3, 0, 0, 0])

theorem boundAux_length (bs : List (ℚ × ℚ)) (xs ds : List ℚ)
    (h1 : xs.length = ds.length) (h2 : xs.length = bs.length) :
    (boundAux bs xs ds).length = xs.length := by
  induction xs generalizing bs ds with
  | nil => cases bs with
    | nil => cases ds <;> simp [boundAux]
    | cons b bs => simp at h2
  | cons x xs ih =>
    cases bs with
    | nil => simp at h2
    | cons b bs =>
      cases ds with
      | nil => simp at h1
      | cons d ds =>
        obtain ⟨lo, hi⟩ := b
        simp only [boundAux, List.length_cons]
        rw [ih]
        · simpa using h1
        · simpa using h2

theorem boundAux_getD (bs : List (ℚ × ℚ)) (xs ds : List ℚ) (i : ℕ)
    (hi : i < xs.length) (h1 : xs.length = ds.length) (h2 : xs.length = bs.length) :
    (boundAux bs xs ds).getD i 0 =
      clip (xs.getD i 0 + ds.getD i 0) (bs.getD i (0, 0)).1 (bs.getD i (0, 0)).2
        - xs.getD i 0 := by
  induction i generalizing bs xs ds with
  | zero =>
    cases xs with
    | nil => simp at hi
    | cons x xs =>
      cases ds with
      | nil => simp at h1
      | cons d ds =>
        cases bs with
        | nil => simp at h2
        | cons b bs =>
          obtain ⟨lo, hi'⟩ := b
          simp [boundAux]
  | succ i ih =>
    cases xs with
    | nil => simp at hi
    | cons x xs =>
      cases ds with
      | nil => simp at h1
      | cons d ds =>
        cases bs with
        | nil => simp at h2
        | cons b bs =>
          obtain ⟨lo, hi'⟩ := b
          simp only [boundAux, List.getD_cons_succ]
          exact ih bs xs ds (by simpa using hi) (by simpa using h1) (by simpa using h2)

theorem clip_of_mem (x lo hi : ℚ) (hlo : lo ≤ x) (hhi : x ≤ hi) :
    clip x lo hi = x := by
  unfold clip
  rw [max_eq_left hlo, min_eq_left hhi]

theorem clip_mem (x lo hi : ℚ) (h : lo ≤ hi) :
    lo ≤ clip x lo hi ∧ clip x lo hi ≤ hi := by
  unfold clip
  constructor
  · exact le_min (le_max_right x lo) h
  · exact min_le_right _ _

theorem clip_delta_abs_le (a d lo hi : ℚ) (hlo : lo ≤ a) (hhi : a ≤ hi) :
    |clip (a + d) lo hi - a| ≤ |d| := by
  unfold clip
  rw [abs_le]
  constructor
  · have h1 : a - |d| ≤ a + d := by
      have := neg_abs_le d; linarith
    have h2 : a - |d| ≤ max (a + d) lo := le_trans h1 (le_max_left _ _)
    have h3 : a - |d| ≤ hi := by
      have := abs_nonneg d; linarith
    have := le_min h2 h3
    linarith
  · have h1 : a + d ≤ a + |d| := by
      have := le_abs_self d; linarith
    have h2 : lo ≤ a + |d| := by
      have := abs_nonneg d; linarith
    have h3 : max (a + d) lo ≤ a + |d| := max_le h1 h2
    have := min_le_left (max (a + d) lo) hi
    linarith

/-- C1: for every proposed delta `d` and every non-empty angle reading `a`
within the per-joint bounds, `bound_movement` returns exactly
`clip(a + d, lo, hi) - a`, the corrected delta keeps `a + d'` inside the
bounds (so clipping it again is the identity), and each component of `d'`
is no larger in magnitude than the corresponding component of `d`. -/
theorem bound_movement_clips_within_bounds (bounds : List (ℚ × ℚ)) (a d : List ℚ)
    (hne : a ≠ []) (hl1 : a.length = d.length) (hl2 : a.length = bounds.length)
    (hb : ∀ i, i < a.length →
      (bounds.getD i (0, 0)).1 ≤ a.getD i 0 ∧ a.getD i 0 ≤ (bounds.getD i (0, 0)).2) :
    ∃ d', bound_movement bounds a d = some d' ∧ d'.length = a.length ∧
      ∀ i, i < a.length →
        a.getD i 0 + d'.getD i 0 =
          clip (a.getD i 0 + d.getD i 0) (bounds.getD i (0, 0)).1 (bounds.getD i (0, 0)).2 ∧
        clip (a.getD i 0 + d'.getD i 0) (bounds.getD i (0, 0)).1 (bounds.getD i (0, 0)).2 =
          a.getD i 0 + d'.getD i 0 ∧
        |d'.getD i 0| ≤ |d.getD i 0| := by
  refine ⟨boundAux bounds a d, ?_, boundAux_length bounds a d hl1 hl2, ?_⟩
  · unfold bound_movement
    rw [if_neg]
    simp [List.isEmpty_iff, hne]
  · intro i hi
    rw [boundAux_getD bounds a d i hi hl1 hl2]
    obtain ⟨h1, h2⟩ := hb i hi
    have hlohi : (bounds.getD i (0, 0)).1 ≤ (bounds.getD i (0, 0)).2 := le_trans h1 h2
    have hc := clip_mem (a.getD i 0 + d.getD i 0) _ _ hlohi
    refine ⟨by ring, ?_, clip_delta_abs_le _ _ _ _ h1 h2⟩
    have he : a.getD i 0 +
        (clip (a.getD i 0 + d.getD i 0) (bounds.getD i (0, 0)).1 (bounds.getD i (0, 0)).2
          - a.getD i 0) =
        clip (a.getD i 0 + d.getD i 0) (bounds.getD i (0, 0)).1 (bounds.getD i (0, 0)).2 := by
      ring
    rw [he]
    exact clip_of_mem _ _ _ hc.1 hc.2

/-- Witness for C1: angles `[0, 0, 243, 0]` within the default bounds and
proposed delta `[0, 0, 5, 0]`. -/
theorem bound_movement_clips_within_bounds_witness :
    ∃ d', bound_movement defaultJointBounds [0, 0, 243, 0] [0, 0, 5, 0] = some d' ∧
      d'.length = ([0, 0, 243, 0] : List ℚ).length ∧
      ∀ i, i < ([0, 0, 243, 0] : List ℚ).length →
        ([0, 0, 243, 0] : List ℚ).getD i 0 + d'.getD i 0 =
          clip (([0, 0, 243, 0] : List ℚ).getD i 0 + ([0, 0, 5, 0] : List ℚ).getD i 0)
            (defaultJointBounds.getD i (0, 0)).1 (defaultJointBounds.getD i (0, 0)).2 ∧
        clip (([0, 0, 243, 0] : List ℚ).getD i 0 + d'.getD i 0)
            (defaultJointBounds.getD i (0, 0)).1 (defaultJointBounds.getD i (0, 0)).2 =
          ([0, 0, 243, 0] : List ℚ).getD i 0 + d'.getD i 0 ∧
        |d'.getD i 0| ≤ |([0, 0, 5, 0] : List ℚ).getD i 0| :=
  bound_movement_clips_within_bounds defaultJointBounds [0, 0, 243, 0] [0, 0, 5, 0]
    (by simp) rfl rfl
    (by
      intro i hi
      simp only [List.length_cons, List.length_nil] at hi
      interval_cases i <;> norm_num [defaultJointBounds])

/-- C2 (code bug): on the five-entry memory whose third entry the arm would
reject, `replay` raises `AttributeError` while dispatching the very first
entry (`MemoryType.POINT` does not exist), so nothing is ever sent to the
arm and every entry keeps `valid = true` — the short-circuit
invalidation of lines 245-253 is unreachable. -/
theorem replay_short_circuit_unreachable :
    replay failThirdMove fiveEntryMemory =
      { memory := fiveEntryMemory, sent := [], raised := some PyError.attributeError } ∧
    (replay failThirdMove fiveEntryMemory).memory.all (fun e => e.valid) = true :=
  ⟨rfl, rfl⟩

/-- C3 (code bug): the replay dispatch compares `entry.type` against
`MemoryType.POINT`, which is not a member of `utils.MemoryType`, so even a
plain ABSOLUTE/JOINT entry makes `replay` raise `AttributeError` instead of
selecting `move_joint`. -/
theorem replay_dispatch_raises :
    selectMoveFunc absJointEntry = .error PyError.attributeError ∧
    replay (fun _ => true) [absJointEntry] =
      { memory := [absJointEntry], sent := [], raised := some PyError.attributeError } :=
  ⟨rfl, rfl⟩

/-- C10: `optimize_relative_movement` reads `self.memory[0]` first, so it
raises `IndexError` on an empty memory (and only there), while the delete
edge and `replay` are no-ops on empty memory. -/
theorem bundle_empty_memory_behavior :
    optimize_relative_movement [] = none ∧
    (∀ m : List MemoryEntry, m ≠ [] → ∃ l, optimize_relative_movement m = some l) ∧
    (∀ st : Bool, delete_last st [] = []) ∧
    (∀ succeeds, replay succeeds [] = { memory := [], sent := [], raised := none }) := by
  refine ⟨rfl, ?_, ?_, fun _ => rfl⟩
  · intro m hm
    cases m with
    | nil => exact absurd rfl hm
    | cons e r => exact ⟨optAux e r, rfl⟩
  · intro st
    simp [delete_last]

/-- Witness for C10: a one-entry memory does get optimized. -/
theorem bundle_empty_memory_behavior_witness :
    ∃ l, optimize_relative_movement [absJointEntry] = some l :=
  bundle_empty_memory_behavior.2.1 [absJointEntry] (by simp)

/-- C4 counterexample: with the default configuration in RELATIVE mode,
full positive trigger on joint 2 and current angles `[0, 0, 243, 0]`, the
intended (unclamped) delta is `[0, 0, 5, 0]`, but the tick hands `save` the
clamped delta `[0, 0, 2, 0]`, and the appended entry — the dataclass filled
positionally — carries `MotionType.JOINT` in its `value` field and the
clamped delta in its `motion_type` field: the unclamped delta is held by
neither field of the entry. -/
theorem move_robot_unclamped_claim_counterexample :
    intended_movement cexState cexBuffer = [0, 0, 5, 0] ∧
    move_robot cexState cexBuffer [0, 0, 243, 0] true =
      some (some [0, 0, 2, 0],
        some { type := MemoryType.RELATIVE,
               value := .ofMotionType MotionType.JOINT,
               motion_type := .ofValue (.flat [0, 0, 2, 0]), valid := true }) ∧
    ([0, 0, 2, 0] : List ℚ) ≠ [0, 0, 5, 0] ∧
    PyField.ofMotionType MotionType.JOINT ≠ PyField.ofValue (.flat [0, 0, 5, 0]) ∧
    PyField.ofValue (.flat [0, 0, 2, 0]) ≠ PyField.ofValue (.flat [0, 0, 5, 0]) := by
  refine ⟨?_, ?_, by norm_num, by simp, by norm_num⟩
  · norm_num [intended_movement, cexState, cexBuffer]
    rfl
  · norm_num [move_robot, save, cexState, cexBuffer, bound_movement, intended_movement,
      boundAux, defaultJointBounds, clip, deadzone, min_def, max_def]

/-- C4 (amended): whenever a control tick both issues a command and appends
an entry, `save(RELATIVE, JOINT, movement)` received exactly the command
that was sent — the bounded, dead-zoned delta, not the unclamped intended
one — and, because `save` fills the dataclass positionally, the appended
entry holds `MotionType.JOINT` in its `value` field and that clamped delta
in its `motion_type` field. -/
theorem move_robot_saves_the_clamped_delta (st : RecorderState) (buf : ControllerBuffer)
    (a : List ℚ) (succ : Bool) (cmd : List ℚ) (e : SavedEntry)
    (h : move_robot st buf a succ = some (some cmd, some e)) :
    e = save MemoryType.RELATIVE MotionType.JOINT (Value.flat cmd) ∧
    e.value = PyField.ofMotionType MotionType.JOINT ∧
    e.motion_type = PyField.ofValue (Value.flat cmd) ∧
    st.mode = MemoryType.RELATIVE ∧
    ∃ bounded, bound_movement st.joint_bounds a (intended_movement st buf) = some bounded ∧
      cmd = bounded.map deadzone := by
  cases hb : bound_movement st.joint_bounds a (intended_movement st buf) with
  | none => rw [move_robot, hb] at h; exact absurd h (by simp)
  | some bounded =>
    rw [move_robot] at h
    simp only [hb] at h
    by_cases hex : ∃ x ∈ bounded.map deadzone, x ≠ 0
    · rw [if_pos hex] at h
      cases succ with
      | false => simp at h
      | true =>
        rw [if_pos rfl] at h
        by_cases hrel : st.mode = MemoryType.RELATIVE ∧ 0 < |(bounded.map deadzone).sum|
        · rw [if_pos hrel] at h
          simp only [Option.some.injEq, Prod.mk.injEq] at h
          obtain ⟨h1, h2⟩ := h
          subst h1
          subst h2
          exact ⟨rfl, rfl, rfl, hrel.1, bounded, rfl, rfl⟩
        · rw [if_neg hrel] at h
          simp at h
    · rw [if_neg hex] at h
      simp at h

/-- Witness for C4 (amended) at the counterexample tick. -/
theorem move_robot_saves_the_clamped_delta_witness :
    save MemoryType.RELATIVE MotionType.JOINT (Value.flat [0, 0, 2, 0]) =
      save MemoryType.RELATIVE MotionType.JOINT (Value.flat [0, 0, 2, 0]) ∧
    (save MemoryType.RELATIVE MotionType.JOINT (Value.flat [0, 0, 2, 0])).value =
      PyField.ofMotionType MotionType.JOINT ∧
    (save MemoryType.RELATIVE MotionType.JOINT (Value.flat [0, 0, 2, 0])).motion_type =
      PyField.ofValue (Value.flat [0, 0, 2, 0]) ∧
    cexState.mode = MemoryType.RELATIVE ∧
    ∃ bounded,
      bound_movement cexState.joint_bounds [0, 0, 243, 0]
        (intended_movement cexState cexBuffer) = some bounded ∧
      ([0, 0, 2, 0] : List ℚ) = bounded.map deadzone :=
  move_robot_saves_the_clamped_delta cexState cexBuffer [0, 0, 243, 0] true
    [0, 0, 2, 0]
    (save MemoryType.RELATIVE MotionType.JOINT (Value.flat [0, 0, 2, 0]))
    (by norm_num [move_robot, save, cexState, cexBuffer, bound_movement, intended_movement,
      boundAux, defaultJointBounds, clip, deadzone, min_def, max_def])

/-- C5: the dead zone replaces every bounded component of magnitude below
`0.5` by exactly `0`, an all-zero dead-zoned vector makes the tick issue no
command and append no entry, and any command that is issued is exactly the
dead-zoned bounded delta. -/
theorem move_robot_deadzone_zeroes_and_skips :
    (∀ x : ℚ, |x| < 1 / 2 → deadzone x = 0) ∧
    ∀ st buf (a : List ℚ) (succ : Bool) bounded,
      bound_movement st.joint_bounds a (intended_movement st buf) = some bounded →
      ((∀ x ∈ bounded.map deadzone, x = 0) →
        move_robot st buf a succ = some (none, none)) ∧
      ∀ cmd res, move_robot st buf a succ = some (some cmd, res) →
        cmd = bounded.map deadzone := by
  constructor
  · intro x h
    unfold deadzone
    rw [if_pos h]
  · intro st buf a succ bounded hb
    constructor
    · intro hz
      rw [move_robot]
      simp only [hb]
      rw [if_neg]
      intro hex
      obtain ⟨x, hx, hxne⟩ := hex
      exact hxne (hz x hx)
    · intro cmd res h
      rw [move_robot] at h
      simp only [hb] at h
      by_cases hex : ∃ x ∈ bounded.map deadzone, x ≠ 0
      · rw [if_pos hex] at h
        cases succ with
        | false =>
          rw [if_neg Bool.false_ne_true] at h
          simp only [Option.some.injEq, Prod.mk.injEq] at h
          exact h.1.symm
        | true =>
          rw [if_pos rfl] at h
          simp only [Option.some.injEq, Prod.mk.injEq] at h
          exact h.1.symm
      · rw [if_neg hex] at h
        simp at h

/-- Witness for C5: an idle controller buffer at in-bounds angles issues
nothing and saves nothing. -/
theorem move_robot_deadzone_zeroes_and_skips_witness :
    move_robot cexState idleBuffer [0, 0, 100, 0] true = some (none, none) :=
  ((move_robot_deadzone_zeroes_and_skips.2 cexState idleBuffer [0, 0, 100, 0] true
      [0, 0, 0, 0]
      (by norm_num [bound_movement, intended_movement, cexState, idleBuffer,
        boundAux, defaultJointBounds, clip, min_def, max_def])).1
    (by norm_num [deadzone]))

theorem npSign_eq_cases (x : ℚ) :
    npSign x = -1 ∧ x < 0 ∨ npSign x = 0 ∧ x = 0 ∨ npSign x = 1 ∧ 0 < x := by
  unfold npSign
  rcases lt_trichotomy x 0 with h | h | h
  · left; exact ⟨if_pos h, h⟩
  · right; left
    subst h
    norm_num
  · right; right
    rw [if_neg (by linarith), if_pos h]
    exact ⟨rfl, h⟩

theorem npSign_add_of_eq {x y : ℚ} (h : npSign x = npSign y) :
    npSign (x + y) = npSign x := by
  rcases npSign_eq_cases x with ⟨e1, l1⟩ | ⟨e1, l1⟩ | ⟨e1, l1⟩ <;>
    rcases npSign_eq_cases y with ⟨e2, l2⟩ | ⟨e2, l2⟩ | ⟨e2, l2⟩ <;>
    rw [e1, e2] at h <;> try norm_num at h
  · rw [e1]
    unfold npSign
    rw [if_pos (by linarith)]
  · rw [e1]
    subst l1; subst l2
    norm_num [npSign]
  · rw [e1]
    unfold npSign
    rw [if_neg (by linarith), if_pos (by linarith)]

theorem map_npSign_add {a b : List ℚ} (h : a.map npSign = b.map npSign) :
    (List.zipWith (· + ·) a b).map npSign = a.map npSign := by
  induction a generalizing b with
  | nil => simp
  | cons x xs ih =>
    cases b with
    | nil => simp at h
    | cons y ys =>
      simp only [List.map_cons, List.cons.injEq] at h
      simp only [List.zipWith_cons_cons, List.map_cons, List.cons.injEq]
      exact ⟨npSign_add_of_eq h.1, ih h.2⟩

theorem map_map_npSign_add {a b : List (List ℚ)}
    (h : a.map (fun r => r.map npSign) = b.map (fun r => r.map npSign)) :
    (List.zipWith (fun r s => List.zipWith (· + ·) r s) a b).map (fun r => r.map npSign) =
      a.map (fun r => r.map npSign) := by
  induction a generalizing b with
  | nil => simp
  | cons x xs ih =>
    cases b with
    | nil => simp at h
    | cons y ys =>
      simp only [List.map_cons, List.cons.injEq] at h
      simp only [List.zipWith_cons_cons, List.map_cons, List.cons.injEq]
      exact ⟨map_npSign_add h.1, ih h.2⟩

theorem signV_addV {u v : Value} (h : signV v = signV u) :
    signV (addV u v) = signV u := by
  cases u with
  | flat us =>
    cases v with
    | flat vs =>
      simp only [signV, addV, Value.flat.injEq] at h ⊢
      exact map_npSign_add h.symm
    | mat vs => simp [signV] at h
  | mat us =>
    cases v with
    | flat vs => simp [signV] at h
    | mat vs =>
      simp only [signV, addV, Value.mat.injEq] at h ⊢
      exact map_map_npSign_add h.symm

theorem mergeEntries_signV {l e : MemoryEntry} (h : mergeCond l e) :
    signV (mergeEntries l e).value = signV l.value :=
  signV_addV h.2.2.2

theorem mergeCond_congr {m e h : MemoryEntry} (ht : h.type = e.type)
    (hm : h.motion_type = e.motion_type) (hs : signV h.value = signV e.value) :
    mergeCond m h ↔ mergeCond m e := by
  unfold mergeCond
  rw [ht, hm, hs]

theorem optAux_head (rest : List MemoryEntry) :
    ∀ last, ∃ h t, optAux last rest = h :: t ∧ h.type = last.type ∧
      h.motion_type = last.motion_type ∧ signV h.value = signV last.value := by
  induction rest with
  | nil => exact fun last => ⟨last, [], rfl, rfl, rfl, rfl⟩
  | cons e rs ih =>
    intro last
    by_cases hc : mergeCond last e
    · obtain ⟨h, t, he, h1, h2, h3⟩ := ih (mergeEntries last e)
      refine ⟨h, t, by simp [optAux, hc, he], ?_, ?_, ?_⟩
      · rw [h1]; rfl
      · rw [h2]; rfl
      · rw [h3, mergeEntries_signV hc]
    · exact ⟨last, optAux e rs, by simp [optAux, hc], rfl, rfl, rfl⟩

theorem optAux_chain (rest : List MemoryEntry) :
    ∀ last, List.Chain' (fun x y => ¬mergeCond x y) (optAux last rest) := by
  induction rest with
  | nil => intro last; simp [optAux]
  | cons e rs ih =>
    intro last
    by_cases hc : mergeCond last e
    · simpa [optAux, hc] using ih (mergeEntries last e)
    · rw [show optAux last (e :: rs) = last :: optAux e rs by simp [optAux, hc]]
      obtain ⟨h, t, he, h1, h2, h3⟩ := optAux_head rs e
      rw [he]
      rw [List.chain'_cons']
      refine ⟨?_, he ▸ ih e⟩
      intro z hz
      simp only [List.head?_cons, Option.mem_def, Option.some.injEq] at hz
      subst hz
      exact fun hmc => hc ((mergeCond_congr h1 h2 h3).mp hmc)

theorem optAux_of_chain (rest : List MemoryEntry) :
    ∀ last, List.Chain' (fun x y => ¬mergeCond x y) (last :: rest) →
      optAux last rest = last :: rest := by
  induction rest with
  | nil => intro last _; rfl
  | cons e rs ih =>
    intro last h
    rw [List.chain'_cons] at h
    simp only [optAux, if_neg h.1]
    rw [ih e h.2]

theorem getD_map_npSign (xs : List ℚ) (i : ℕ) :
    (xs.map npSign).getD i 0 = npSign (xs.getD i 0) := by
  induction xs generalizing i with
  | nil => simp [npSign]
  | cons x t ih =>
    cases i with
    | zero => simp
    | succ j => simpa using ih j

/-- C6: `optimize_relative_movement` merges an adjacent pair exactly under
the RELATIVE/same-kind/equal-sign guard, summing values and and-ing the
valid flags; it is idempotent; the two-entry `[1,0,0,0]`/`[2,0,0,0]`
example merges to `[3,0,0,0]`; and a pair with opposite-sign components is
left unmerged. -/
theorem optimize_relative_movement_props :
    (∀ l l', optimize_relative_movement l = some l' →
      optimize_relative_movement l' = some l') ∧
    (optimize_relative_movement
        [{ type := .RELATIVE, value := .flat [1, 0, 0, 0],
           motion_type := .JOINT, valid := true },
         { type := .RELATIVE, value := .flat [2, 0, 0, 0],
           motion_type := .JOINT, valid := true }] =
      some [{ type := .RELATIVE, value := .flat [3, 0, 0, 0],
              motion_type := .JOINT, valid := true }]) ∧
    (∀ a b : MemoryEntry, mergeCond a b →
      optimize_relative_movement [a, b] =
        some [{ a with value := addV a.value b.value, valid := a.valid && b.valid }]) ∧
    (∀ a b : MemoryEntry, ¬mergeCond a b →
      optimize_relative_movement [a, b] = some [a, b]) ∧
    ∀ a b : MemoryEntry, ∀ i : ℕ,
      npSign ((flatValue a.value).getD i 0) = 1 →
      npSign ((flatValue b.value).getD i 0) = -1 →
      optimize_relative_movement [a, b] = some [a, b] := by
  have hpair : ∀ a b : MemoryEntry, ¬mergeCond a b →
      optimize_relative_movement [a, b] = some [a, b] := by
    intro a b hc
    simp [optimize_relative_movement, optAux, hc]
  refine ⟨?_, ?_, ?_, hpair, ?_⟩
  · intro l l' h
    cases l with
    | nil => simp [optimize_relative_movement] at h
    | cons e rest =>
      simp only [optimize_relative_movement, Option.some.injEq] at h
      subst h
      obtain ⟨hd, tl, heq, _, _, _⟩ := optAux_head rest e
      rw [heq]
      simp only [optimize_relative_movement, Option.some.injEq]
      have hch := optAux_chain rest e
      rw [heq] at hch
      exact optAux_of_chain tl hd hch
  · norm_num [optimize_relative_movement, optAux, mergeCond, mergeEntries,
      signV, npSign, addV]
  · intro a b hc
    simp [optimize_relative_movement, optAux, hc, mergeEntries]
  · intro a b i h1 h2
    refine hpair a b fun hc => ?_
    have hs := hc.2.2.2
    cases hva : a.value with
    | mat rows =>
      rw [hva] at h1
      norm_num [flatValue, npSign] at h1
    | flat xs =>
      cases hvb : b.value with
      | mat rows =>
        rw [hvb] at h2
        norm_num [flatValue, npSign] at h2
      | flat ys =>
        rw [hva, hvb] at hs
        simp only [signV, Value.flat.injEq] at hs
        have := congrArg (fun l => l.getD i 0) hs
        simp only [getD_map_npSign] at this
        rw [hva] at h1
        rw [hvb] at h2
        simp only [flatValue] at h1 h2
        rw [h2, h1] at this
        norm_num at this

/-- Witness for C6: re-optimizing the already-merged two-entry example is
the identity. -/
theorem optimize_relative_movement_props_witness :
    optimize_relative_movement
        [{ type := .RELATIVE, value := .flat [3, 0, 0, 0],
           motion_type := .JOINT, valid := true }] =
      some [{ type := .RELATIVE, value := .flat [3, 0, 0, 0],
              motion_type := .JOINT, valid := true }] :=
  optimize_relative_movement_props.1
    [{ type := .RELATIVE, value := .flat [1, 0, 0, 0],
       motion_type := .JOINT, valid := true },
     { type := .RELATIVE, value := .flat [2, 0, 0, 0],
       motion_type := .JOINT, valid := true }]
    [{ type := .RELATIVE, value := .flat [3, 0, 0, 0],
       motion_type := .JOINT, valid := true }]
    optimize_relative_movement_props.2.1

theorem memoryTypeMember_name (t : MemoryType) : memoryTypeMember t.name = some t := by
  cases t <;> rfl

theorem motionTypeMember_name (m : MotionType) : motionTypeMember m.name = some m := by
  cases m <;> rfl

/-- C7 counterexample: the END_EFFECTOR entry saved by the gripper handler
satisfies the category/motion-kind invariant, yet `serialize` raises
`TypeError` on it (`float()` of a `(pin, level)` row), so the JSON round
trip does not even start for such a memory. -/
theorem serialize_end_effector_raises :
    categoryMotionInvariant gripperEntry = true ∧
    serialize gripperEntry = none ∧
    serialize_memory [gripperEntry] = none :=
  ⟨rfl, rfl, rfl⟩

/-- C7 (amended): for every memory whose entries carry flat (1-D) value
arrays — all ABSOLUTE/RELATIVE moves — serialization succeeds and
deserializing it restores the memory exactly. -/
theorem memory_json_roundtrip_flat :
    ∀ memory : List MemoryEntry, (∀ e ∈ memory, ∃ xs, e.value = Value.flat xs) →
      ∃ ser, serialize_memory memory = some ser ∧ deserialize_memory ser = some memory := by
  intro memory
  induction memory with
  | nil => exact fun _ => ⟨[], rfl, rfl⟩
  | cons e rest ih =>
    intro h
    obtain ⟨xs, hxs⟩ := h e (by simp)
    obtain ⟨ser, hs, hd⟩ := ih fun x hx => h x (by simp [hx])
    obtain ⟨t, v, mt, vl⟩ := e
    simp only at hxs
    subst hxs
    refine ⟨{ typeName := t.name, valueField := xs,
              motionTypeName := mt.name, validFlag := vl } :: ser, ?_, ?_⟩
    · simp only [serialize_memory, List.mapM_cons]
      rw [show serialize ⟨t, Value.flat xs, mt, vl⟩ =
        some { typeName := t.name, valueField := xs,
               motionTypeName := mt.name, validFlag := vl } from rfl]
      simp only [serialize_memory] at hs
      rw [hs]
      rfl
    · simp only [deserialize_memory, List.mapM_cons]
      rw [show from_dict ⟨t.name, xs, mt.name, vl⟩ =
          some ⟨t, Value.flat xs, mt, vl⟩ by
        simp [from_dict, memoryTypeMember_name, motionTypeMember_name]]
      simp only [deserialize_memory] at hd
      rw [hd]
      rfl

/-- Witness for C7 (amended): a one-entry ABSOLUTE/JOINT memory
round-trips. -/
theorem memory_json_roundtrip_flat_witness :
    ∃ ser, serialize_memory [absJointEntry] = some ser ∧
      deserialize_memory ser = some [absJointEntry] :=
  memory_json_roundtrip_flat [absJointEntry]
    (by
      intro e he
      simp only [List.mem_singleton] at he
      subst he
      exact ⟨[10, 20, 30, 40], rfl⟩)

/-- C8: the pose and angles accessors never propagate an exception: on a
transport failure they return the zero vector, and on every reply they
either return the zero vector (any parse exception or a header mismatch)
or, when the header parses as return code `0` with the matching method
name, the parsed telemetry payload. -/
theorem pose_angles_zero_on_failure :
    (∀ (n : ℕ) (e : PyError), pose n (.error e) = [0, 0, 0, 0] ∧
      angles n (.error e) = [0, 0, 0, 0]) ∧
    (∀ (n : ℕ) (reply : Except PyError String), pose n reply = [0, 0, 0, 0] ∨
      ∃ s, reply = .ok s ∧ extract_metavalues s = .ok (0, "GetPose") ∧
        pose n reply = extract_pose n s) ∧
    ∀ (n : ℕ) (reply : Except PyError String), angles n reply = [0, 0, 0, 0] ∨
      ∃ s, reply = .ok s ∧ extract_metavalues s = .ok (0, "GetAngle") ∧
        angles n reply = extract_angles n s := by
  refine ⟨fun n e => ⟨rfl, rfl⟩, ?_, ?_⟩
  · intro n reply
    cases reply with
    | error e => left; rfl
    | ok s =>
      cases hm : extract_metavalues s with
      | error err =>
        left
        simp [pose, poseTry, hm]
      | ok p =>
        obtain ⟨rv, name⟩ := p
        by_cases hc : rv = 0 ∧ name = "GetPose"
        · right
          refine ⟨s, rfl, ?_, ?_⟩
          · rw [hm, hc.1, hc.2]
          · simp [pose, poseTry, hm, hc]
        · left
          simp [pose, poseTry, hm, hc]
  · intro n reply
    cases reply with
    | error e => left; rfl
    | ok s =>
      cases hm : extract_metavalues s with
      | error err =>
        left
        simp [angles, anglesTry, hm]
      | ok p =>
        obtain ⟨rv, name⟩ := p
        by_cases hc : rv = 0 ∧ name = "GetAngle"
        · right
          refine ⟨s, rfl, ?_, ?_⟩
          · rw [hm, hc.1, hc.2]
          · simp [angles, anglesTry, hm, hc]
        · left
          simp [angles, anglesTry, hm, hc]

/-- C9 (code bug): `error_id` does not always return a list. On a reply
whose return code is not `0` the method falls off the end and returns
Python `None`, which makes `len(self.error_id)` in `nonblocking_move`
raise `TypeError`; when the register read itself fails, the handler's
`print("Result", result)` hits the unbound `result` and a `NameError`
propagates. Only the no-error reply does return the empty list. -/
theorem error_id_not_always_a_list :
    error_id [] (.ok "1,\x7b[[24]]\x7d,GetErrorID();") = .ok none ∧
    nonblocking_move (error_id [] (.ok "1,\x7b[[24]]\x7d,GetErrorID();")) =
      .error PyError.typeError ∧
    error_id [] (.error .connectionError) = .error PyError.nameError ∧
    error_id [(24, "Collision detected")] (.ok "0,\x7b[[]]\x7d,GetErrorID();") =
      .ok (some []) ∧
    error_id [(24, "Collision detected")] (.ok "0,\x7b[[24, 99]]\x7d,GetErrorID();") =
      .ok (some ["Collision detected", "Unknown error 99"]) :=
  ⟨rfl, rfl, rfl, rfl, rfl⟩

end RobotRecording

